import Mathlib

/-!
# Session orchestrator of `rust-ssh-client`, embedded in Lean

This file embeds the session-orchestration core of the repository
(`src/js/app.js` together with the `FileManager` state-snapshot methods and
the `TerminalManager` surface lifecycle) as pure Lean functions over an
explicit application state, and proves the specified properties about it.

Conventions of the embedding:
* The DOM is projected onto the observable fields the specification talks
  about: per-session container visibility (`style.display`), the placeholder
  visibility, and the status bar.
* Backend bridge calls (`invoke`) are modelled by explicit parameters holding
  the backend's response, and by event traces recorded in the state:
  `fetches` records every `sftp_list` request issued by
  `FileManager.loadDirectory`, `disposed` records every
  `TerminalManager.destroy()` call, `unmounted` every `container.remove()`,
  `focusFits` every terminal focus-and-fit performed on a switch, and `log`
  every `console.error`/`console.warn` message.
* JavaScript string identity (`===`) is string equality; the falsy check
  `if (!this.app.currentSessionId)` is `none` or the empty string.
* Records found by `Array.prototype.find` are mutated in place in the
  source; ids are unique (backend-assigned), so the in-place mutation of the
  found object is embedded as a map over the session list that rewrites the
  record(s) carrying that id.
-/

namespace RustSSH

/-- The Directory Browser's navigation state: `FileManager.currentPath`,
`FileManager.history`, `FileManager.historyIndex`.  The same value type is
used for a session's stored `fileManagerState` snapshot.  (`addSession`
creates the snapshot without a `historyIndex` field; `setState` coerces a
missing `historyIndex` to `-1`, so the initial snapshot is embedded with
`historyIndex = -1`, which is observationally identical.) -/
structure FMState where
  path : String
  history : List String
  historyIndex : Int
deriving DecidableEq

/-- One session object as pushed by `App.addSession` (`app.js:266-275`):
`id`, `name`, its exclusively owned terminal (embedded as the list of data
chunks written to it), the mounted container (embedded as its visibility),
and the `fileManagerState` snapshot. -/
structure SessionRec where
  id : String
  name : String
  visible : Bool
  buffer : List (List Nat)
  fmState : FMState
deriving DecidableEq

/-- A saved connection profile (`ConnectionManager.connections` entry),
restricted to the fields `App.connect` reads. -/
structure ConnInfo where
  id : String
  name : String
  host : String
deriving DecidableEq

/-- The observable application state of the `App` controller plus the shared
`FileManager`, with event traces for the backend bridge. -/
structure AppState where
  sessions : List SessionRec
  currentSessionId : Option String
  currentConnectionId : Option String
  connections : List ConnInfo
  fm : FMState
  status : String × String
  placeholderShown : Bool
  fetches : List (String × String)
  disposed : List String
  unmounted : List String
  focusFits : List String
  log : List String
deriving DecidableEq

/-- `this.sessions.find(s => s.id === sessionId)`. -/
def findSession (s : AppState) (sessionId : String) : Option SessionRec :=
  s.sessions.find? (fun (r : SessionRec) => r.id == sessionId)

/-- The ids of the registry in tab order. -/
def idsOf (s : AppState) : List String :=
  s.sessions.map (·.id)

/-- The stored snapshot of the session with the given id, if present. -/
def snapOf (s : AppState) (sessionId : String) : Option FMState :=
  (findSession s sessionId).map (·.fmState)

/-- The visibility of the session's container, if present. -/
def visOf (s : AppState) (sessionId : String) : Option Bool :=
  (findSession s sessionId).map (·.visible)

/-- JavaScript truthiness of `this.app.currentSessionId`: `null` and the
empty string are falsy. -/
def truthyId : Option String → Bool
  | none => false
  | some sessionId => sessionId != ""

/-- `FileManager.loadDirectory(path)` (`app.js` FileManager section): bails
out when no session is active, otherwise issues one `sftp_list` request for
the active session at `path` and, on its success, sets `currentPath`. -/
def fmLoadDirectory (s : AppState) (path : String) : AppState :=
  if truthyId s.currentSessionId then
    { s with fetches := s.fetches ++ [(s.currentSessionId.getD "", path)],
             fm := { s.fm with path := path } }
  else s

/-- `FileManager.getState()`: the live navigation state as a value. -/
def fmGetState (s : AppState) : FMState :=
  { path := s.fm.path, history := s.fm.history, historyIndex := s.fm.historyIndex }

/-- `FileManager.setState(state, sessionId)`: install the snapshot
(`state.path || '/'`, `state.history || []`, numeric `historyIndex` or `-1`)
and, when `sessionId` is the active session, re-fetch the listing at the
installed path via `loadDirectory`. -/
def fmSetState (s : AppState) (st : FMState) (sessionId : String) : AppState :=
  let s1 := { s with fm := { path := if st.path = "" then "/" else st.path,
                             history := st.history,
                             historyIndex := st.historyIndex } }
  if s1.currentSessionId = some sessionId then
    fmLoadDirectory s1 s1.fm.path
  else s1

/-- `FileManager.clear()`: drop the listing and reset `currentPath` to `/`
(history is not touched). -/
def fmClear (s : AppState) : AppState :=
  { s with fm := { s.fm with path := "/" } }

/-- `App.updateTabsUI` (`app.js:385-434`), restricted to its observable
effect on the placeholder: shown exactly when no sessions remain. -/
def updateTabsUI (s : AppState) : AppState :=
  { s with placeholderShown := s.sessions.isEmpty }

/-- `App.handleDisconnect` (`app.js:372-383`): clear the pointer, show the
disconnected status and the placeholder, clear the file manager. -/
def handleDisconnect (s : AppState) : AppState :=
  let s1 := { s with currentSessionId := none,
                     status := ("disconnected", "Disconnected"),
                     placeholderShown := true }
  fmClear s1

/-- `App.switchSession(sessionId)` (`app.js:310-339`).  Looks up the old and
the new session; a missing new session is a silent no-op.  Otherwise the old
session (if still present) is hidden and its snapshot overwritten with the
live Directory Browser state; the pointer moves, the new container is shown,
the new session's stored snapshot (read through the possibly-just-updated
record, which matters when old = new) is restored into the file manager,
status and tabs are refreshed, and the terminal is focused and refit. -/
def switchSession (s : AppState) (sessionId : String) : AppState :=
  let oldSession : Option SessionRec :=
    match s.currentSessionId with
    | none => none
    | some cur => findSession s cur
  match findSession s sessionId with
  | none => s
  | some _ =>
    let s1 :=
      match oldSession with
      | none => s
      | some old =>
        { s with sessions := s.sessions.map (fun (r : SessionRec) =>
            if r.id = old.id then { r with visible := false, fmState := fmGetState s }
            else r) }
    let s2 := { s1 with currentSessionId := some sessionId,
                        sessions := s1.sessions.map (fun (r : SessionRec) =>
                          if r.id = sessionId then { r with visible := true } else r) }
    let s3 :=
      match findSession s2 sessionId with
      | none => s2
      | some newSession =>
        let s3a := fmSetState s2 newSession.fmState sessionId
        { s3a with status := ("connected", "Connected to " ++ newSession.name) }
    let s4 := updateTabsUI s3
    { s4 with focusFits := s4.focusFits ++ [sessionId] }

/-- `App.closeSession(sessionId)` (`app.js:341-370`).  A missing id is a
no-op.  Otherwise the backend is notified best-effort (`notifyOk = false`
embeds a rejected `ssh_disconnect`, which is only logged), the terminal is
destroyed, the container removed, the record spliced out; then, if sessions
remain, the session at position `max(0, i-1)` of the post-removal order is
activated (`Nat` subtraction gives exactly `Math.max(0, i-1)`), else the
empty state is entered. -/
def closeSession (s : AppState) (sessionId : String) (notifyOk : Bool) : AppState :=
  match s.sessions.findIdx? (fun (r : SessionRec) => r.id == sessionId) with
  | none => s
  | some sessionIndex =>
    let s0 := if notifyOk then s else { s with log := s.log ++ ["Disconnect error"] }
    let s1 := { s0 with disposed := s0.disposed ++ [sessionId] }
    let s2 := { s1 with unmounted := s1.unmounted ++ [sessionId] }
    let s3 := { s2 with sessions := s2.sessions.eraseIdx sessionIndex }
    if s3.sessions.length > 0 then
      match s3.sessions[sessionIndex - 1]? with
      | some nextSession => switchSession s3 nextSession.id
      | none => s3
    else
      let s4 := { s3 with currentSessionId := none }
      let s5 := handleDisconnect s4
      updateTabsUI s5

/-- `App.loadInitialFiles(sessionId)` (`app.js:289-308`), with the backend's
`sftp_get_home` response as parameter (`none` embeds a rejected call). -/
def loadInitialFiles (s : AppState) (sessionId : String) (homeRes : Option String) :
    AppState :=
  match homeRes with
  | some homeDir =>
    if s.currentSessionId = some sessionId then
      fmLoadDirectory s homeDir
    else
      match findSession s sessionId with
      | some _ =>
        { s with sessions := s.sessions.map (fun (r : SessionRec) =>
            if r.id = sessionId then { r with fmState := { r.fmState with path := homeDir } }
            else r) }
      | none => s
  | none =>
    let s1 := { s with log := s.log ++ ["Failed to get home directory"] }
    if s1.currentSessionId = some sessionId then
      fmLoadDirectory s1 "/"
    else s1

/-- `App.addSession(sessionId, name)` (`app.js:253-287`): mount a fresh
container, create the record with the default snapshot, push it, switch to
it, refresh the tabs and kick off the initial file load. -/
def addSession (s : AppState) (sessionId name : String) (homeRes : Option String) :
    AppState :=
  let newRec : SessionRec :=
    { id := sessionId, name := name, visible := false, buffer := [],
      fmState := { path := "/", history := [], historyIndex := -1 } }
  let s1 := { s with sessions := s.sessions ++ [newRec] }
  let s2 := switchSession s1 sessionId
  let s3 := updateTabsUI s2
  loadInitialFiles s3 sessionId homeRes

/-- `App.connect(id)` (`app.js:218-244`), with the backend's `ssh_connect`
response as parameter: an unknown profile id returns immediately; otherwise
the connecting status is shown, and on backend failure the reason is surfaced
and logged with no session created, while on success the session is added. -/
def connect (s : AppState) (pid : String) (backendRes : Except String String)
    (homeRes : Option String) : AppState :=
  match s.connections.find? (fun (c : ConnInfo) => c.id == pid) with
  | none => s
  | some conn =>
    let s1 := { s with currentConnectionId := some pid,
                       status := ("connecting", "Connecting to " ++ conn.host ++ "...") }
    match backendRes with
    | .error e =>
      { s1 with status := ("error", "Connection failed: " ++ e),
                log := s1.log ++ [e] }
    | .ok sessionId =>
      let s2 := { s1 with status := ("connected", "Connected to " ++ conn.host) }
      addSession s2 sessionId (if conn.name = "" then conn.host else conn.name) homeRes

/-- The `ssh-data` listener (`app.js:48-54`) composed with
`TerminalManager.writeData` (`terminal.js`): if the session is present its
terminal receives the bytes, otherwise the event is dropped. -/
def sshData (s : AppState) (sessionId : String) (data : List Nat) : AppState :=
  match findSession s sessionId with
  | some _ =>
    { s with sessions := s.sessions.map (fun (r : SessionRec) =>
        if r.id = sessionId then { r with buffer := r.buffer ++ [data] } else r) }
  | none => s

/-- The `ssh-close` listener (`app.js:65-68`): it invokes `closeSession`
with the backend-supplied id. -/
def sshClose (s : AppState) (sessionId : String) (notifyOk : Bool) : AppState :=
  closeSession s sessionId notifyOk

/-- One orchestrator operation, for reasoning about operation sequences. -/
inductive Op where
  | connect (pid : String) (backendRes : Except String String) (homeRes : Option String)
  | switchTo (sessionId : String)
  | close (sessionId : String) (notifyOk : Bool)

/-- Execute one operation. -/
def exec (s : AppState) : Op → AppState
  | .connect pid backendRes homeRes => connect s pid backendRes homeRes
  | .switchTo sessionId => switchSession s sessionId
  | .close sessionId notifyOk => closeSession s sessionId notifyOk

/-- Execute a sequence of operations. -/
def execList (s : AppState) : List Op → AppState
  | [] => s
  | op :: rest => execList (exec s op) rest

/-- The application state right after start-up: no sessions, empty pointer,
placeholder visible, file manager at `/`. -/
def initState (cs : List ConnInfo) : AppState :=
  { sessions := [], currentSessionId := none, currentConnectionId := none,
    connections := cs,
    fm := { path := "/", history := [], historyIndex := -1 },
    status := ("disconnected", "Disconnected"), placeholderShown := true,
    fetches := [], disposed := [], unmounted := [], focusFits := [], log := [] }

/-- A trace of operations is admissible when every successful connect is
given a backend-assigned id that is fresh (not currently in the registry)
and non-empty — the uniqueness the backend guarantees for live session ids. -/
def admissibleB : AppState → List Op → Bool
  | _, [] => true
  | s, op :: rest =>
    (match op with
     | .connect _ (.ok sessionId) _ =>
       sessionId != "" && !(s.sessions.any (fun (r : SessionRec) => r.id == sessionId))
     | _ => true)
    && admissibleB (exec s op) rest

/-- `avoidsB x s ops` holds when, after every step of `ops` run from `s`,
the session `x` is still registered and is not the active session: the
trace neither closes `x` nor switches (back) to it. -/
def avoidsB (x : String) : AppState → List Op → Bool
  | _, [] => true
  | s, op :: rest =>
    let t := exec s op
    t.sessions.any (fun (r : SessionRec) => r.id == x)
      && !(t.currentSessionId == some x)
      && avoidsB x t rest

/-- The strengthened orchestrator invariant: ids are duplicate-free; when
the Active Session Pointer is set it names a registered session, a session's
surface is visible exactly when the pointer names it, and the placeholder is
hidden; when the pointer is empty the registry is empty and the placeholder
is shown. -/
def RegistryInv (s : AppState) : Prop :=
  (idsOf s).Nodup ∧
  (match s.currentSessionId with
   | some cur =>
     (∃ r ∈ s.sessions, r.id = cur) ∧
     (∀ r ∈ s.sessions, (r.visible = true ↔ r.id = cur)) ∧
     s.placeholderShown = false
   | none => s.sessions = [] ∧ s.placeholderShown = true)

/-- A concrete session record, for concrete test states. -/
def exRec (i : String) (v : Bool) (p : String) : SessionRec :=
  { id := i, name := i, visible := v, buffer := [],
    fmState := { path := p, history := [], historyIndex := -1 } }

/-- A concrete three-session state `[A, B, C]` with `C` active, the live
Directory Browser at `/live`, and one saved connection profile. -/
def exState : AppState :=
  { sessions := [exRec "A" false "/a", exRec "B" false "/b", exRec "C" true "/c"],
    currentSessionId := some "C", currentConnectionId := none,
    connections := [{ id := "p1", name := "srv", host := "host1" }],
    fm := { path := "/live", history := [], historyIndex := -1 },
    status := ("connected", "Connected to C"), placeholderShown := false,
    fetches := [], disposed := [], unmounted := [], focusFits := [], log := [] }

/-! ## Basic lemmas about lookups and the registry -/

/-- An id absent from every record makes `findSession` fail. -/
theorem findSession_eq_none_of_not_mem (s : AppState) (x : String)
    (h : ∀ r ∈ s.sessions, r.id ≠ x) : findSession s x = none := by
  rw [findSession, List.find?_eq_none]
  intro r hr
  simpa using h r hr

/-- `switchSession` with an unknown id is the identity. -/
theorem switchSession_not_found (s : AppState) (x : String)
    (hx : findSession s x = none) : switchSession s x = s := by
  unfold switchSession
  rw [hx]

/-- `closeSession` with an unknown id is the identity. -/
theorem closeSession_not_found (s : AppState) (x : String) (notifyOk : Bool)
    (hx : s.sessions.findIdx? (fun (r : SessionRec) => r.id == x) = none) :
    closeSession s x notifyOk = s := by
  unfold closeSession
  rw [hx]

/-- `find?` by id commutes with a map that does not change ids. -/
theorem find?_by_id_map (g : SessionRec → SessionRec) (hg : ∀ r, (g r).id = r.id)
    (l : List SessionRec) (z : String) :
    (l.map g).find? (fun (r : SessionRec) => r.id == z)
      = (l.find? (fun (r : SessionRec) => r.id == z)).map g := by
  rw [List.find?_map]
  have hpred : ((fun (r : SessionRec) => r.id == z) ∘ g)
      = (fun (r : SessionRec) => r.id == z) := by
    funext r
    simp [Function.comp, hg r]
  rw [hpred]

/-- The tab order of ids is unchanged by a map that does not change ids. -/
theorem ids_map_of_id_fix (g : SessionRec → SessionRec) (hg : ∀ r, (g r).id = r.id)
    (l : List SessionRec) : (l.map g).map (·.id) = l.map (·.id) := by
  rw [List.map_map]
  exact List.map_congr_left fun r _ => hg r

/-- A found session record carries the id it was looked up by. -/
theorem findSession_id (s : AppState) (x : String) (rx : SessionRec)
    (hx : findSession s x = some rx) : rx.id = x := by
  unfold findSession at hx
  simpa using List.find?_some hx

/-- A found session record is in the registry. -/
theorem findSession_mem (s : AppState) (x : String) (rx : SessionRec)
    (hx : findSession s x = some rx) : rx ∈ s.sessions := by
  unfold findSession at hx
  exact List.mem_of_find?_eq_some hx

/-! ## Characterization of `switchSession` -/

/-- `switchSession` never touches the traces it does not own, the saved
connections, nor the selected profile. -/
theorem switchSession_frame (s : AppState) (x : String) :
    (switchSession s x).log = s.log ∧
    (switchSession s x).disposed = s.disposed ∧
    (switchSession s x).unmounted = s.unmounted ∧
    (switchSession s x).connections = s.connections ∧
    (switchSession s x).currentConnectionId = s.currentConnectionId := by
  simp only [switchSession, fmSetState, fmLoadDirectory, updateTabsUI]
  repeat' split
  all_goals simp

/-- After a successful `switchSession`, the Active Session Pointer names the
target session. -/
theorem switchSession_cur (s : AppState) (x : String)
    (hx : (findSession s x).isSome) :
    (switchSession s x).currentSessionId = some x := by
  obtain ⟨rx, hrx⟩ := Option.isSome_iff_exists.mp hx
  simp only [switchSession, fmSetState, fmLoadDirectory, updateTabsUI, hrx]
  repeat' split
  all_goals simp

/-- The capture step of `switchSession`, as a map over the registry. -/
theorem switchSession_sessions_cap (s : AppState) (x cur : String) (rx old : SessionRec)
    (hx : findSession s x = some rx) (hcs : s.currentSessionId = some cur)
    (hco : findSession s cur = some old) :
    (switchSession s x).sessions =
      (s.sessions.map (fun (r : SessionRec) =>
          if r.id = old.id then { r with visible := false, fmState := fmGetState s }
          else r)).map
        (fun (r : SessionRec) => if r.id = x then { r with visible := true } else r) := by
  simp only [switchSession, hx, hcs, hco, fmSetState, fmLoadDirectory, updateTabsUI]
  repeat' split
  all_goals rfl

/-- When no session is current, `switchSession` only shows the target. -/
theorem switchSession_sessions_nocur (s : AppState) (x : String) (rx : SessionRec)
    (hx : findSession s x = some rx) (hcs : s.currentSessionId = none) :
    (switchSession s x).sessions =
      s.sessions.map
        (fun (r : SessionRec) => if r.id = x then { r with visible := true } else r) := by
  simp only [switchSession, hx, hcs, fmSetState, fmLoadDirectory, updateTabsUI]
  repeat' split
  all_goals rfl

/-- When the Active Session Pointer dangles (its session is gone),
`switchSession` skips the capture and only shows the target. -/
theorem switchSession_sessions_dangling (s : AppState) (x cur : String) (rx : SessionRec)
    (hx : findSession s x = some rx) (hcs : s.currentSessionId = some cur)
    (hco : findSession s cur = none) :
    (switchSession s x).sessions =
      s.sessions.map
        (fun (r : SessionRec) => if r.id = x then { r with visible := true } else r) := by
  simp only [switchSession, hx, hcs, hco, fmSetState, fmLoadDirectory, updateTabsUI]
  repeat' split
  all_goals rfl

/-- The capture map does not change ids. -/
theorem cap_map_id (y : String) (st : FMState) (r : SessionRec) :
    ((if r.id = y then { r with visible := false, fmState := st } else r) : SessionRec).id
      = r.id := by
  split <;> rfl

/-- The show map does not change ids. -/
theorem show_map_id (y : String) (r : SessionRec) :
    ((if r.id = y then { r with visible := true } else r) : SessionRec).id = r.id := by
  split <;> rfl

theorem switchSession_ids (s : AppState) (x : String) :
    idsOf (switchSession s x) = idsOf s := by
  cases hx : findSession s x with
  | none => rw [switchSession_not_found s x hx]
  | some rx =>
    cases hcs : s.currentSessionId with
    | none =>
      rw [idsOf, switchSession_sessions_nocur s x rx hx hcs,
        ids_map_of_id_fix _ (show_map_id x)]
      rfl
    | some cur =>
      cases hco : findSession s cur with
      | none =>
        rw [idsOf, switchSession_sessions_dangling s x cur rx hx hcs hco,
          ids_map_of_id_fix _ (show_map_id x)]
        rfl
      | some old =>
        rw [idsOf, switchSession_sessions_cap s x cur rx old hx hcs hco,
          ids_map_of_id_fix _ (show_map_id x),
          ids_map_of_id_fix _ (fun r => cap_map_id old.id (fmGetState s) r)]
        rfl

/-- After a successful `switchSession`, one focus-and-refit is issued to the
target session's terminal. -/
theorem switchSession_focusFits (s : AppState) (x : String)
    (hx : (findSession s x).isSome) :
    (switchSession s x).focusFits = s.focusFits ++ [x] := by
  obtain ⟨rx, hrx⟩ := Option.isSome_iff_exists.mp hx
  simp only [switchSession, fmSetState, fmLoadDirectory, updateTabsUI, hrx]
  repeat' split
  all_goals simp

/-- `switchSession` leaves every session other than the target and the
previously current one entirely untouched. -/
theorem switchSession_find_frame (s : AppState) (x z : String)
    (hz : z ≠ x) (hcurz : s.currentSessionId ≠ some z) :
    findSession (switchSession s x) z = findSession s z := by
  cases hx : findSession s x with
  | none => rw [switchSession_not_found s x hx]
  | some rx =>
    have hfix : ∀ g : SessionRec → SessionRec, (∀ r, (g r).id = r.id) →
        (∀ r, r.id = z → g r = r) →
        (s.sessions.map g).find? (fun (r : SessionRec) => r.id == z)
          = s.sessions.find? (fun (r : SessionRec) => r.id == z) := by
      intro g hgid hgfix
      rw [find?_by_id_map g hgid]
      cases hzf : s.sessions.find? (fun (r : SessionRec) => r.id == z) with
      | none => rfl
      | some rz =>
        have : rz.id = z := by simpa using List.find?_some hzf
        simp [hgfix rz this]
    cases hcs : s.currentSessionId with
    | none =>
      unfold findSession
      rw [switchSession_sessions_nocur s x rx hx hcs]
      exact hfix _ (show_map_id x) (fun r hr => by simp [hr, hz])
    | some cur =>
      have hcz : cur ≠ z := by
        intro h
        exact hcurz (by rw [hcs, h])
      cases hco : findSession s cur with
      | none =>
        unfold findSession
        rw [switchSession_sessions_dangling s x cur rx hx hcs hco]
        exact hfix _ (show_map_id x) (fun r hr => by simp [hr, hz])
      | some old =>
        have hold : old.id = cur := findSession_id s cur old hco
        unfold findSession
        rw [switchSession_sessions_cap s x cur rx old hx hcs hco]
        rw [find?_by_id_map _ (show_map_id x)]
        rw [hfix _ (fun r => cap_map_id old.id (fmGetState s) r)
          (fun r hr => by
            have : r.id ≠ old.id := by rw [hr, hold]; exact fun h => hcz h.symm
            simp [this])]
        cases hzf : s.sessions.find? (fun (r : SessionRec) => r.id == z) with
        | none => rfl
        | some rz =>
          have : rz.id = z := by simpa using List.find?_some hzf
          simp [this, hz]

/-- Capture-on-deactivate: after `switchSession`, the previously current
session's stored snapshot is the Directory Browser's live state. -/
theorem switchSession_snap_capture (s : AppState) (x cur : String) (rx old : SessionRec)
    (hx : findSession s x = some rx) (hcs : s.currentSessionId = some cur)
    (hco : findSession s cur = some old) :
    snapOf (switchSession s x) cur = some (fmGetState s) := by
  unfold snapOf findSession
  rw [switchSession_sessions_cap s x cur rx old hx hcs hco]
  rw [find?_by_id_map _ (show_map_id x),
    find?_by_id_map _ (fun r => cap_map_id old.id (fmGetState s) r)]
  unfold findSession at hco
  rw [hco]
  by_cases h : old.id = x <;> simp [h]

/-- Looking up the target through the show map yields the target record,
made visible. -/
theorem findSession_show_map (s : AppState) (x : String) (rx : SessionRec)
    (hx : findSession s x = some rx) :
    (s.sessions.map
        (fun (r : SessionRec) => if r.id = x then { r with visible := true } else r)).find?
      (fun (r : SessionRec) => r.id == x) = some { rx with visible := true } := by
  have hid : rx.id = x := findSession_id s x rx hx
  rw [find?_by_id_map _ (show_map_id x)]
  unfold findSession at hx
  rw [hx]
  simp [hid]

/-- Looking up the target through capture-then-show yields the target record,
made visible, when the target differs from the captured session. -/
theorem findSession_cap_show_map (s : AppState) (x : String) (rx old : SessionRec)
    (hx : findSession s x = some rx) (hnex : rx.id ≠ old.id) :
    ((s.sessions.map (fun (r : SessionRec) =>
        if r.id = old.id then { r with visible := false, fmState := fmGetState s }
        else r)).map
      (fun (r : SessionRec) => if r.id = x then { r with visible := true } else r)).find?
      (fun (r : SessionRec) => r.id == x) = some { rx with visible := true } := by
  have hid : rx.id = x := findSession_id s x rx hx
  have hxold : x ≠ old.id := by
    rw [← hid]
    exact hnex
  rw [find?_by_id_map _ (show_map_id x),
    find?_by_id_map _ (fun r => cap_map_id old.id (fmGetState s) r)]
  unfold findSession at hx
  rw [hx]
  simp [hnex, hid, hxold]

/-- Switching to a non-current session restores that session's stored
snapshot into the Directory Browser (with the snapshot's `path || '/'`
defaulting) and issues exactly one directory fetch at the restored path. -/
theorem switchSession_restore_ne (s : AppState) (x : String) (rx : SessionRec)
    (hx : findSession s x = some rx) (hne : s.currentSessionId ≠ some x) (hxe : x ≠ "") :
    (switchSession s x).fm
        = { path := if rx.fmState.path = "" then "/" else rx.fmState.path,
            history := rx.fmState.history,
            historyIndex := rx.fmState.historyIndex } ∧
    (switchSession s x).fetches
        = s.fetches ++ [(x, if rx.fmState.path = "" then "/" else rx.fmState.path)] := by
  have hxu : List.find? (fun (r : SessionRec) => r.id == x) s.sessions = some rx := hx
  cases hcs : s.currentSessionId with
  | none =>
    simp only [switchSession, hx, hcs, findSession, hxu,
      findSession_show_map s x rx hx, fmSetState, fmLoadDirectory, updateTabsUI, truthyId]
    simp [hxe]
  | some cur =>
    cases hco : findSession s cur with
    | none =>
      have hcou : List.find? (fun (r : SessionRec) => r.id == cur) s.sessions = none := hco
      simp only [switchSession, hx, hcs, hco, findSession, hxu, hcou,
        findSession_show_map s x rx hx, fmSetState, fmLoadDirectory, updateTabsUI, truthyId]
      simp [hxe]
    | some old =>
      have hcou : List.find? (fun (r : SessionRec) => r.id == cur) s.sessions = some old := hco
      have hnex : rx.id ≠ old.id := by
        rw [findSession_id s x rx hx, findSession_id s cur old hco]
        intro h
        exact hne (by rw [hcs, h])
      simp only [switchSession, hx, hcs, hco, findSession, hxu, hcou,
        findSession_cap_show_map s x rx old hx hnex, fmSetState, fmLoadDirectory,
        updateTabsUI, truthyId]
      simp [hxe]

/-- Switching to the already-active session first captures the live state
into the snapshot and then restores that very snapshot, issuing one fetch at
the current path. -/
theorem switchSession_self_restore (s : AppState) (x : String) (rx : SessionRec)
    (hx : findSession s x = some rx) (hcs : s.currentSessionId = some x) (hxe : x ≠ "") :
    (switchSession s x).fm
        = { path := if s.fm.path = "" then "/" else s.fm.path,
            history := s.fm.history, historyIndex := s.fm.historyIndex } ∧
    (switchSession s x).fetches
        = s.fetches ++ [(x, if s.fm.path = "" then "/" else s.fm.path)] := by
  have hid : rx.id = x := findSession_id s x rx hx
  have hfound : ((s.sessions.map (fun (r : SessionRec) =>
        if r.id = rx.id then { r with visible := false, fmState := fmGetState s }
        else r)).map
      (fun (r : SessionRec) => if r.id = x then { r with visible := true } else r)).find?
      (fun (r : SessionRec) => r.id == x)
      = some { rx with visible := true, fmState := fmGetState s } := by
    rw [find?_by_id_map _ (show_map_id x),
      find?_by_id_map _ (fun r => cap_map_id rx.id (fmGetState s) r)]
    unfold findSession at hx
    rw [hx]
    simp [hid]
  have hxu : List.find? (fun (r : SessionRec) => r.id == x) s.sessions = some rx := hx
  simp only [switchSession, hx, hcs, findSession, hxu, hfound, fmSetState, fmLoadDirectory,
    updateTabsUI, truthyId]
  simp [hxe, fmGetState]

/-- The visibility written by the show map. -/
theorem show_map_vis (y : String) (r : SessionRec) :
    ((if r.id = y then { r with visible := true } else r) : SessionRec).visible
      = if r.id = y then true else r.visible := by
  split <;> rfl

/-- The visibility written by the capture map. -/
theorem cap_map_vis (z : String) (st : FMState) (r : SessionRec) :
    ((if r.id = z then { r with visible := false, fmState := st } else r) : SessionRec).visible
      = if r.id = z then false else r.visible := by
  split <;> rfl

/-- After a successful `switchSession`, a session's surface is visible
exactly when it is the target — provided that beforehand only the session
named by the pointer could be visible. -/
theorem switchSession_vis (s : AppState) (x : String) (rx : SessionRec)
    (hx : findSession s x = some rx)
    (hpre : ∀ r ∈ s.sessions, r.visible = true → s.currentSessionId = some r.id) :
    ∀ r ∈ (switchSession s x).sessions, (r.visible = true ↔ r.id = x) := by
  cases hcs : s.currentSessionId with
  | none =>
    rw [switchSession_sessions_nocur s x rx hx hcs]
    intro r hr
    obtain ⟨r0, hr0, rfl⟩ := List.mem_map.mp hr
    rw [show_map_vis, show_map_id]
    by_cases h : r0.id = x
    · simp [h]
    · have hv : r0.visible = false := by
        by_contra hv
        have := hpre r0 hr0 (by simpa using hv)
        rw [hcs] at this
        exact Option.noConfusion this
      simp [h, hv]
  | some cur =>
    have huntouched : ∀ r0 ∈ s.sessions, r0.id ≠ cur → r0.visible = false := by
      intro r0 hr0 hc
      by_contra hv
      have := hpre r0 hr0 (by simpa using hv)
      rw [hcs] at this
      exact hc (Option.some.inj this).symm
    cases hco : findSession s cur with
    | none =>
      have hnone : ∀ r0 ∈ s.sessions, r0.id ≠ cur := by
        intro r0 hr0
        unfold findSession at hco
        rw [List.find?_eq_none] at hco
        simpa using hco r0 hr0
      rw [switchSession_sessions_dangling s x cur rx hx hcs hco]
      intro r hr
      obtain ⟨r0, hr0, rfl⟩ := List.mem_map.mp hr
      rw [show_map_vis, show_map_id]
      by_cases h : r0.id = x
      · simp [h]
      · simp [h, huntouched r0 hr0 (hnone r0 hr0)]
    | some old =>
      have hold : old.id = cur := findSession_id s cur old hco
      rw [switchSession_sessions_cap s x cur rx old hx hcs hco]
      intro r hr
      obtain ⟨r1, hr1, rfl⟩ := List.mem_map.mp hr
      obtain ⟨r0, hr0, rfl⟩ := List.mem_map.mp hr1
      rw [show_map_vis, show_map_id, cap_map_id, cap_map_vis]
      by_cases hxid : r0.id = x
      · simp [hxid]
      · rw [if_neg hxid]
        by_cases hcid : r0.id = old.id
        · rw [if_pos hcid]
          simp [hxid]
        · have hcur : r0.id ≠ cur := fun h => hcid (h.trans hold.symm)
          rw [if_neg hcid]
          simp [hxid, huntouched r0 hr0 hcur]

/-- After a successful `switchSession`, the placeholder is hidden (the
registry is non-empty). -/
theorem switchSession_placeholder (s : AppState) (x : String)
    (hx : (findSession s x).isSome) :
    (switchSession s x).placeholderShown = false := by
  obtain ⟨rx, hrx⟩ := Option.isSome_iff_exists.mp hx
  have hne : s.sessions ≠ [] := by
    intro h
    rw [findSession, h] at hrx
    simp at hrx
  simp only [switchSession, fmSetState, fmLoadDirectory, updateTabsUI, hrx]
  repeat' split
  all_goals simp_all [List.isEmpty_iff]

/-! ## Characterization of `closeSession` -/

/-- Mapping commutes with `eraseIdx`. -/
theorem map_eraseIdx {α β : Type} (f : α → β) :
    ∀ (l : List α) (i : Nat), (l.eraseIdx i).map f = (l.map f).eraseIdx i := by
  intro l
  induction l with
  | nil => intro i; rfl
  | cons a l ih =>
    intro i
    cases i with
    | zero => rfl
    | succ j => simp [List.eraseIdx_cons_succ, ih j]

/-- Erasing the position of an element of a duplicate-free list removes it. -/
theorem not_mem_eraseIdx_of_nodup (l : List String) (i : Nat) (a : String)
    (hnd : l.Nodup) (ha : l[i]? = some a) : a ∉ l.eraseIdx i := by
  intro hmem
  rw [List.mem_eraseIdx_iff_getElem?] at hmem
  obtain ⟨j, hji, hj⟩ := hmem
  obtain ⟨hilt, hia⟩ := List.getElem?_eq_some_iff.mp ha
  obtain ⟨hjlt, hja⟩ := List.getElem?_eq_some_iff.mp hj
  have : i = j := by
    have hinj := List.nodup_iff_injective_get.mp hnd
    have : l.get ⟨i, hilt⟩ = l.get ⟨j, hjlt⟩ := by
      simp [List.get_eq_getElem, hia, hja]
    exact Fin.mk.inj_iff.mp (hinj this)
  exact hji this.symm

/-- `closeSession` on a session at position `i`, when sessions remain after
the removal: local teardown followed by activating the post-removal session
at position `max(0, i-1)`. -/
theorem closeSession_next (s : AppState) (sid : String) (ok : Bool) (i : Nat)
    (next : SessionRec)
    (hi : s.sessions.findIdx? (fun (r : SessionRec) => r.id == sid) = some i)
    (hnext : (s.sessions.eraseIdx i)[i - 1]? = some next) :
    closeSession s sid ok =
      switchSession { s with sessions := s.sessions.eraseIdx i,
                             disposed := s.disposed ++ [sid],
                             unmounted := s.unmounted ++ [sid],
                             log := if ok then s.log
                                    else s.log ++ ["Disconnect error"] } next.id := by
  have hlen : 0 < (s.sessions.eraseIdx i).length := by
    obtain ⟨hlt, _⟩ := List.getElem?_eq_some_iff.mp hnext
    exact Nat.lt_of_le_of_lt (Nat.zero_le _) hlt
  simp only [closeSession, hi]
  cases ok <;> simp only [if_pos, if_neg, Bool.false_eq_true, ite_true, ite_false] <;>
    simp [hlen, hnext]

set_option maxHeartbeats 1000000 in
/-- `switchSession` neither reads nor writes the console log. -/
theorem switchSession_log_congr (s : AppState) (L : List String) (x : String) :
    switchSession { s with log := L } x = { switchSession s x with log := L } := by
  cases hx : findSession s x with
  | none =>
    have hxL : findSession { s with log := L } x = none := hx
    rw [switchSession_not_found _ x hxL, switchSession_not_found s x hx]
  | some rx =>
    have hxL : findSession { s with log := L } x = some rx := hx
    cases hcs : s.currentSessionId with
    | none =>
      simp only [switchSession, hx, hxL, hcs, findSession, fmGetState, fmSetState,
        fmLoadDirectory, updateTabsUI, truthyId]
      repeat' split
      all_goals first
        | rfl
        | simp_all
    | some cur =>
      cases hco : findSession s cur with
      | none =>
        have hcoL : List.find? (fun (r : SessionRec) => r.id == cur) s.sessions = none := hco
        simp only [switchSession, hx, hxL, hcs, hcoL, findSession, fmGetState, fmSetState,
          fmLoadDirectory, updateTabsUI, truthyId]
        repeat' split
        all_goals first
          | rfl
          | simp_all
      | some old =>
        have hcoL : List.find? (fun (r : SessionRec) => r.id == cur) s.sessions = some old := hco
        simp only [switchSession, hx, hxL, hcs, hcoL, findSession, fmGetState, fmSetState,
          fmLoadDirectory, updateTabsUI, truthyId]
        repeat' split
        all_goals first
          | rfl
          | simp_all

/-- `closeSession` on the last remaining session: local teardown followed by
the empty state. -/
theorem closeSession_empty (s : AppState) (sid : String) (ok : Bool) (i : Nat)
    (hi : s.sessions.findIdx? (fun (r : SessionRec) => r.id == sid) = some i)
    (hemp : s.sessions.eraseIdx i = []) :
    closeSession s sid ok =
      { s with sessions := [], currentSessionId := none,
               status := ("disconnected", "Disconnected"), placeholderShown := true,
               fm := { s.fm with path := "/" },
               disposed := s.disposed ++ [sid], unmounted := s.unmounted ++ [sid],
               log := if ok then s.log else s.log ++ ["Disconnect error"] } := by
  simp only [closeSession, hi, hemp]
  cases ok <;> simp [updateTabsUI, handleDisconnect, fmClear, hemp]

/-! ## Claims -/

/-- The data map of the `ssh-data` listener does not change ids. -/
theorem data_map_id (y : String) (d : List Nat) (r : SessionRec) :
    ((if r.id = y then { r with buffer := r.buffer ++ [d] } else r) : SessionRec).id
      = r.id := by
  split <;> rfl

/-- C9: for an id not present in the Registry, both `switchSession` and
`closeSession` are total no-ops: the state is returned unchanged and no
error is raised. -/
theorem c9_unknown_id_noop (s : AppState) (sid : String) (notifyOk : Bool)
    (h : ∀ r ∈ s.sessions, r.id ≠ sid) :
    switchSession s sid = s ∧ closeSession s sid notifyOk = s := by
  constructor
  · exact switchSession_not_found s sid (findSession_eq_none_of_not_mem s sid h)
  · apply closeSession_not_found
    rw [List.findIdx?_eq_none_iff]
    intro r hr
    simpa using h r hr

/-- C9 witness: the unknown id `"Z"` against the concrete three-session
state. -/
theorem c9_unknown_id_noop_witness :
    (∀ r ∈ exState.sessions, r.id ≠ "Z") ∧
    switchSession exState "Z" = exState ∧ closeSession exState "Z" true = exState := by
  refine ⟨by decide, ?_, ?_⟩
  · exact (c9_unknown_id_noop exState "Z" true (by decide)).1
  · exact (c9_unknown_id_noop exState "Z" true (by decide)).2

/-- C4: a backend-pushed `closed` event is handled by invoking exactly the
user-facing `closeSession` on the backend-supplied id — so it follows the
same replacement-activation rule — and is a no-op for unregistered ids. -/
theorem c4_closed_event_is_closeSession (s : AppState) (z : String) (notifyOk : Bool) :
    sshClose s z notifyOk = closeSession s z notifyOk ∧
    ((∀ r ∈ s.sessions, r.id ≠ z) → sshClose s z notifyOk = s) := by
  refine ⟨rfl, fun h => ?_⟩
  apply closeSession_not_found
  rw [List.findIdx?_eq_none_iff]
  intro r hr
  simpa using h r hr

/-- C4 witness: the refinement at the concrete state, for a live id and for
an unknown id. -/
theorem c4_closed_event_is_closeSession_witness :
    sshClose exState "B" true = closeSession exState "B" true ∧
    sshClose exState "Z" true = exState := by
  exact ⟨(c4_closed_event_is_closeSession exState "B" true).1,
    (c4_closed_event_is_closeSession exState "Z" true).2 (by decide)⟩

/-- C6: a `data` push-event for a registered session appends the payload to
that session's own terminal and changes nothing else — with no condition on
the Active Session Pointer — while an unregistered id yields the unchanged
state (no exception). -/
theorem c6_data_event_routing (s : AppState) (sid : String) (d : List Nat) :
    ((∃ rr, findSession s sid = some rr) →
        idsOf (sshData s sid d) = idsOf s ∧
        (∀ r ∈ s.sessions, r.id = sid →
            ({ r with buffer := r.buffer ++ [d] } : SessionRec) ∈ (sshData s sid d).sessions) ∧
        (∀ r ∈ s.sessions, r.id ≠ sid → r ∈ (sshData s sid d).sessions) ∧
        (sshData s sid d).currentSessionId = s.currentSessionId ∧
        (sshData s sid d).fm = s.fm ∧
        (sshData s sid d).fetches = s.fetches ∧
        (sshData s sid d).placeholderShown = s.placeholderShown) ∧
    (findSession s sid = none → sshData s sid d = s) := by
  constructor
  · rintro ⟨rr, hrr⟩
    simp only [sshData, hrr]
    refine ⟨?_, ?_, ?_, trivial, trivial, trivial, trivial⟩
    · exact ids_map_of_id_fix _ (data_map_id sid d) s.sessions
    · intro r hr hid
      have heq : (fun (r : SessionRec) =>
          if r.id = sid then { r with buffer := r.buffer ++ [d] } else r) r
            = { r with buffer := r.buffer ++ [d] } := by
        simp [hid]
      exact heq ▸ List.mem_map_of_mem _ hr
    · intro r hr hid
      have heq : (fun (r : SessionRec) =>
          if r.id = sid then { r with buffer := r.buffer ++ [d] } else r) r = r := by
        simp [hid]
      exact heq ▸ List.mem_map_of_mem _ hr
  · intro h
    simp only [sshData, h]

/-- C6 witness: data for background session `"B"` lands in `B`'s terminal
while `C` is active; data for the unknown `"Z"` changes nothing. -/
theorem c6_data_event_routing_witness :
    (∃ rr, findSession exState "B" = some rr) ∧
    (exRec "B" false "/b" : SessionRec).buffer = [] ∧
    ({ exRec "B" false "/b" with buffer := [[1, 2]] } : SessionRec)
        ∈ (sshData exState "B" [1, 2]).sessions ∧
    sshData exState "Z" [1, 2] = exState := by
  refine ⟨⟨exRec "B" false "/b", by decide⟩, rfl, ?_, ?_⟩
  · have h := ((c6_data_event_routing exState "B" [1, 2]).1
      ⟨exRec "B" false "/b", by decide⟩).2.1 (exRec "B" false "/b") (by decide) rfl
    simpa using h
  · exact (c6_data_event_routing exState "Z" [1, 2]).2 (by decide)

/-- C7: a backend-rejected connect creates no Session Record and leaves the
whole orchestrator state (registry, pointer, browser state, traces)
unchanged; the failure reason is surfaced on the status indicator. -/
theorem c7_connect_failure_reported_no_mutation (s : AppState) (pid e : String)
    (homeRes : Option String) :
    (connect s pid (Except.error e) homeRes).sessions = s.sessions ∧
    (connect s pid (Except.error e) homeRes).currentSessionId = s.currentSessionId ∧
    (connect s pid (Except.error e) homeRes).fm = s.fm ∧
    (connect s pid (Except.error e) homeRes).fetches = s.fetches ∧
    (connect s pid (Except.error e) homeRes).placeholderShown = s.placeholderShown ∧
    (connect s pid (Except.error e) homeRes).disposed = s.disposed ∧
    (connect s pid (Except.error e) homeRes).unmounted = s.unmounted ∧
    (connect s pid (Except.error e) homeRes).focusFits = s.focusFits ∧
    (∀ conn, s.connections.find? (fun (c : ConnInfo) => c.id == pid) = some conn →
        (connect s pid (Except.error e) homeRes).status
          = ("error", "Connection failed: " ++ e)) := by
  cases h : s.connections.find? (fun (c : ConnInfo) => c.id == pid) with
  | none => simp [connect, h]
  | some conn => simp [connect, h]

/-- C1 counterexample: in `[A, B, C]` with `C` active, closing the
NON-active `B` does not leave the Active Session Pointer unchanged — the
code unconditionally activates the post-removal session at `max(0, i-1)`,
here `A`. -/
theorem c1_counterexample :
    "B" ∈ idsOf exState ∧
    exState.currentSessionId = some "C" ∧
    (closeSession exState "B" true).currentSessionId = some "A" ∧
    (closeSession exState "B" true).currentSessionId ≠ exState.currentSessionId := by
  decide

/-- C1 (amended): closing a registered session that is not the active one
still removes exactly that record, but replacement activation runs
unconditionally whenever sessions remain: the pointer is set to the id of
the post-removal session at position `max(0, i-1)`, which may differ from
the previously active session. -/
theorem c1_close_nonactive_removes_but_reactivates (s : AppState) (sid a : String)
    (notifyOk : Bool) (i : Nat) (next : SessionRec)
    (hi : s.sessions.findIdx? (fun (r : SessionRec) => r.id == sid) = some i)
    (hnext : (s.sessions.eraseIdx i)[i - 1]? = some next)
    (ha : s.currentSessionId = some a) (hne : a ≠ sid) :
    idsOf (closeSession s sid notifyOk) = (s.sessions.eraseIdx i).map (·.id) ∧
    ((idsOf s).Nodup → sid ∉ idsOf (closeSession s sid notifyOk)) ∧
    (closeSession s sid notifyOk).currentSessionId = some next.id := by
  rw [closeSession_next s sid notifyOk i next hi hnext]
  obtain ⟨hlt, hp, _⟩ := List.findIdx?_eq_some_iff_getElem.mp hi
  have hids : (s.sessions.map (·.id))[i]? = some sid := by
    rw [List.getElem?_map, List.getElem?_eq_getElem hlt]
    simpa using hp
  refine ⟨?_, ?_, ?_⟩
  · rw [switchSession_ids]
    rfl
  · intro hnd h
    rw [switchSession_ids] at h
    have h2 : sid ∈ ((s.sessions.eraseIdx i).map (·.id)) := h
    rw [map_eraseIdx] at h2
    exact not_mem_eraseIdx_of_nodup _ i sid hnd hids h2
  · apply switchSession_cur
    rw [findSession, List.find?_isSome]
    exact ⟨next, List.getElem?_mem hnext, by simp⟩

/-- C1 witness for the amended statement: closing non-active `B` from
`[A, B, C]` (active `C`) removes `B` and activates `A`. -/
theorem c1_close_nonactive_witness :
    idsOf (closeSession exState "B" true) = ["A", "C"] ∧
    "B" ∉ idsOf (closeSession exState "B" true) ∧
    (closeSession exState "B" true).currentSessionId = some "A" := by
  have h := c1_close_nonactive_removes_but_reactivates exState "B" "C" true 1
    (exRec "A" false "/a") (by decide) (by decide) (by decide) (by decide)
  refine ⟨?_, ?_, ?_⟩
  · rw [h.1]
    decide
  · exact h.2.1 (by decide)
  · exact h.2.2

/-- C2: closing the active session at position `i` activates the session at
position `max(0, i-1)` of the post-removal order; closing the last
remaining session clears the pointer, empties the registry and shows the
placeholder. -/
theorem c2_close_active_replacement (s : AppState) (a : String) (notifyOk : Bool)
    (i : Nat)
    (hcur : s.currentSessionId = some a)
    (hi : s.sessions.findIdx? (fun (r : SessionRec) => r.id == a) = some i) :
    (∀ next : SessionRec, (s.sessions.eraseIdx i)[i - 1]? = some next →
        (closeSession s a notifyOk).currentSessionId = some next.id ∧
        idsOf (closeSession s a notifyOk) = (s.sessions.eraseIdx i).map (·.id)) ∧
    (s.sessions.eraseIdx i = [] →
        (closeSession s a notifyOk).currentSessionId = none ∧
        (closeSession s a notifyOk).sessions = [] ∧
        (closeSession s a notifyOk).placeholderShown = true) := by
  constructor
  · intro next hnext
    rw [closeSession_next s a notifyOk i next hi hnext]
    constructor
    · apply switchSession_cur
      rw [findSession, List.find?_isSome]
      exact ⟨next, List.getElem?_mem hnext, by simp⟩
    · rw [switchSession_ids]
      rfl
  · intro hemp
    rw [closeSession_empty s a notifyOk i hi hemp]
    exact ⟨rfl, rfl, rfl⟩

/-- C2 witness: closing active `C` (index 2) from `[A, B, C]` activates `B`
(post-removal index 1); closing the last session of a one-session registry
clears the pointer and shows the placeholder. -/
theorem c2_close_active_replacement_witness :
    (closeSession exState "C" true).currentSessionId = some "B" ∧
    (closeSession { exState with sessions := [exRec "C" true "/c"] } "C" true).currentSessionId
        = none ∧
    (closeSession { exState with sessions := [exRec "C" true "/c"] } "C" true).placeholderShown
        = true := by
  have h1 := ((c2_close_active_replacement exState "C" true 2 (by decide) (by decide)).1
    (exRec "B" false "/b") (by decide)).1
  have h2 := (c2_close_active_replacement { exState with sessions := [exRec "C" true "/c"] }
    "C" true 0 (by decide) (by decide)).2 (by decide)
  exact ⟨h1, h2.1, h2.2.2⟩

/-- C8: when the backend disconnect-notify fails, `closeSession` still
disposes the terminal, unmounts the surface and removes the record; the
failure is logged and the resulting state is otherwise identical to the
successful-notify one. -/
theorem c8_teardown_despite_notify_failure (s : AppState) (sid : String) (i : Nat)
    (hi : s.sessions.findIdx? (fun (r : SessionRec) => r.id == sid) = some i) :
    (closeSession s sid false).disposed = s.disposed ++ [sid] ∧
    (closeSession s sid false).unmounted = s.unmounted ++ [sid] ∧
    idsOf (closeSession s sid false) = (s.sessions.eraseIdx i).map (·.id) ∧
    ((idsOf s).Nodup → sid ∉ idsOf (closeSession s sid false)) ∧
    closeSession s sid false
      = { closeSession s sid true with log := s.log ++ ["Disconnect error"] } := by
  obtain ⟨hlt, hp, _⟩ := List.findIdx?_eq_some_iff_getElem.mp hi
  have hids : (s.sessions.map (·.id))[i]? = some sid := by
    rw [List.getElem?_map, List.getElem?_eq_getElem hlt]
    simpa using hp
  have hmain : ∀ notifyOk : Bool,
      (closeSession s sid notifyOk).disposed = s.disposed ++ [sid] ∧
      (closeSession s sid notifyOk).unmounted = s.unmounted ++ [sid] ∧
      idsOf (closeSession s sid notifyOk) = (s.sessions.eraseIdx i).map (·.id) := by
    intro notifyOk
    cases hnext : (s.sessions.eraseIdx i)[i - 1]? with
    | some next =>
      rw [closeSession_next s sid notifyOk i next hi hnext]
      refine ⟨?_, ?_, ?_⟩
      · rw [(switchSession_frame _ next.id).2.1]
      · rw [(switchSession_frame _ next.id).2.2.1]
      · rw [switchSession_ids]
        rfl
    | none =>
      have hemp : s.sessions.eraseIdx i = [] := by
        have h1 : (s.sessions.eraseIdx i).length ≤ i - 1 :=
          List.getElem?_eq_none_iff.mp hnext
        have h2 : (s.sessions.eraseIdx i).length = s.sessions.length - 1 :=
          List.length_eraseIdx_of_lt hlt
        have : (s.sessions.eraseIdx i).length = 0 := by omega
        exact List.length_eq_zero.mp this
      rw [closeSession_empty s sid notifyOk i hi hemp]
      exact ⟨rfl, rfl, by simp [idsOf, hemp]⟩
  refine ⟨(hmain false).1, (hmain false).2.1, (hmain false).2.2, ?_, ?_⟩
  · intro hnd h
    rw [(hmain false).2.2, map_eraseIdx] at h
    exact not_mem_eraseIdx_of_nodup _ i sid hnd hids h
  · cases hnext : (s.sessions.eraseIdx i)[i - 1]? with
    | some next =>
      rw [closeSession_next s sid false i next hi hnext,
        closeSession_next s sid true i next hi hnext]
      have hc := switchSession_log_congr
        { s with sessions := s.sessions.eraseIdx i,
                 disposed := s.disposed ++ [sid], unmounted := s.unmounted ++ [sid] }
        (s.log ++ ["Disconnect error"]) next.id
      exact hc
    | none =>
      have hemp : s.sessions.eraseIdx i = [] := by
        have h1 : (s.sessions.eraseIdx i).length ≤ i - 1 :=
          List.getElem?_eq_none_iff.mp hnext
        have h2 : (s.sessions.eraseIdx i).length = s.sessions.length - 1 :=
          List.length_eraseIdx_of_lt hlt
        have : (s.sessions.eraseIdx i).length = 0 := by omega
        exact List.length_eq_zero.mp this
      rw [closeSession_empty s sid false i hi hemp,
        closeSession_empty s sid true i hi hemp]
      simp

/-- C8 witness: notify failure while closing `B` from the concrete state
still removes `B`, disposes and unmounts it, and only adds a log line. -/
theorem c8_teardown_despite_notify_failure_witness :
    (closeSession exState "B" false).disposed = ["B"] ∧
    (closeSession exState "B" false).unmounted = ["B"] ∧
    "B" ∉ idsOf (closeSession exState "B" false) ∧
    closeSession exState "B" false
      = { closeSession exState "B" true with log := ["Disconnect error"] } := by
  have h := c8_teardown_despite_notify_failure exState "B" 1 (by decide)
  exact ⟨h.1, h.2.1, h.2.2.2.1 (by decide), h.2.2.2.2⟩

/-- C10: switching to the already-active session is not a no-op — the live
browser state is captured into that session's snapshot and immediately
restored, one fresh directory fetch is issued at the current path, and the
terminal is re-focused and refit, while the Active Session Pointer and the
set of visible surfaces stay as they were. -/
theorem c10_self_switch_captures_and_refetches (s : AppState) (x : String)
    (rx : SessionRec)
    (hx : findSession s x = some rx) (hcs : s.currentSessionId = some x)
    (hxe : x ≠ "") (hp : s.fm.path ≠ "")
    (hpre : ∀ r ∈ s.sessions, r.visible = true → s.currentSessionId = some r.id) :
    switchSession s x ≠ s ∧
    (switchSession s x).currentSessionId = s.currentSessionId ∧
    snapOf (switchSession s x) x = some (fmGetState s) ∧
    (switchSession s x).fm = s.fm ∧
    (switchSession s x).fetches = s.fetches ++ [(x, s.fm.path)] ∧
    (switchSession s x).focusFits = s.focusFits ++ [x] ∧
    (∀ r ∈ (switchSession s x).sessions, (r.visible = true ↔ r.id = x)) := by
  obtain ⟨hfm, hfet⟩ := switchSession_self_restore s x rx hx hcs hxe
  rw [if_neg hp] at hfm hfet
  refine ⟨?_, ?_, ?_, ?_, hfet, ?_, ?_⟩
  · intro heq
    have hc := congrArg AppState.fetches heq
    rw [hfet] at hc
    have hlen := congrArg List.length hc
    simp at hlen
  · rw [switchSession_cur s x (by rw [hx]; rfl), hcs]
  · exact switchSession_snap_capture s x x rx rx hx hcs hx
  · exact hfm
  · exact switchSession_focusFits s x (by rw [hx]; rfl)
  · exact switchSession_vis s x rx hx hpre

/-- C10 witness: self-switching to the active `C` of the concrete state
re-fetches `/live`, refits `C`, and keeps pointer and visibility. -/
theorem c10_self_switch_witness :
    (switchSession exState "C").fetches = [("C", "/live")] ∧
    (switchSession exState "C").currentSessionId = some "C" ∧
    snapOf (switchSession exState "C") "C" = some (fmGetState exState) ∧
    (switchSession exState "C").fm = exState.fm ∧
    switchSession exState "C" ≠ exState := by
  have h := c10_self_switch_captures_and_refetches exState "C" (exRec "C" true "/c")
    (by decide) (by decide) (by decide) (by decide) (by decide)
  exact ⟨h.2.2.2.2.1, h.2.1, h.2.2.1, h.2.2.2.1, h.1⟩

/-- C7 witness: the saved profile `"p1"` with a rejected backend call. -/
theorem c7_connect_failure_witness :
    (connect exState "p1" (Except.error "boom") none).sessions = exState.sessions ∧
    (connect exState "p1" (Except.error "boom") none).status
      = ("error", "Connection failed: boom") := by
  refine ⟨(c7_connect_failure_reported_no_mutation exState "p1" "boom" none).1, ?_⟩
  exact (c7_connect_failure_reported_no_mutation exState "p1" "boom" none).2.2.2.2.2.2.2.2
    { id := "p1", name := "srv", host := "host1" } (by decide)

/-! ## The visibility/pointer invariant (C3) -/

/-- The `loadInitialFiles` snapshot-path map does not change ids. -/
theorem home_map_id (y p : String) (r : SessionRec) :
    ((if r.id = y then { r with fmState := { r.fmState with path := p } } else r)
      : SessionRec).id = r.id := by
  split <;> rfl

/-- The `loadInitialFiles` snapshot-path map does not change visibility. -/
theorem home_map_vis (y p : String) (r : SessionRec) :
    ((if r.id = y then { r with fmState := { r.fmState with path := p } } else r)
      : SessionRec).visible = r.visible := by
  split <;> rfl

/-- A map that changes neither ids nor visibility preserves the registry
invariant. -/
theorem registryInv_map_cosmetic (t : AppState) (g : SessionRec → SessionRec)
    (hid : ∀ r, (g r).id = r.id) (hvis : ∀ r, (g r).visible = r.visible)
    (h : RegistryInv t) :
    RegistryInv { t with sessions := t.sessions.map g } := by
  obtain ⟨hnd, hrest⟩ := h
  constructor
  · show ((t.sessions.map g).map (·.id)).Nodup
    rw [ids_map_of_id_fix g hid]
    exact hnd
  · show (match t.currentSessionId with
          | some cur =>
            (∃ r ∈ t.sessions.map g, r.id = cur) ∧
            (∀ r ∈ t.sessions.map g, (r.visible = true ↔ r.id = cur)) ∧
            t.placeholderShown = false
          | none => t.sessions.map g = [] ∧ t.placeholderShown = true)
    cases hcs : t.currentSessionId with
    | some cur =>
      rw [hcs] at hrest
      obtain ⟨⟨r, hr, hrid⟩, hvisiff, hph⟩ := hrest
      refine ⟨⟨g r, List.mem_map_of_mem g hr, by rw [hid]; exact hrid⟩, ?_, hph⟩
      intro r1 hr1
      obtain ⟨r2, hr2, rfl⟩ := List.mem_map.mp hr1
      rw [hid, hvis]
      exact hvisiff r2 hr2
    | none =>
      rw [hcs] at hrest
      exact ⟨by rw [hrest.1]; rfl, hrest.2⟩

/-- A successful `switchSession` establishes the registry invariant given
duplicate-free ids and the forward half of the visibility condition. -/
theorem registryInv_switch_found (s : AppState) (y : String) (ry : SessionRec)
    (hy : findSession s y = some ry)
    (hnd : (idsOf s).Nodup)
    (hpre : ∀ r ∈ s.sessions, r.visible = true → s.currentSessionId = some r.id) :
    RegistryInv (switchSession s y) := by
  unfold RegistryInv
  rw [switchSession_ids, switchSession_cur s y (by rw [hy]; rfl)]
  refine ⟨hnd, ?_, ?_, ?_⟩
  · have hymem : y ∈ idsOf (switchSession s y) := by
      rw [switchSession_ids]
      exact List.mem_map.mpr ⟨ry, findSession_mem s y ry hy, findSession_id s y ry hy⟩
    obtain ⟨r, hr, hid⟩ := List.mem_map.mp hymem
    exact ⟨r, hr, hid⟩
  · exact switchSession_vis s y ry hy hpre
  · exact switchSession_placeholder s y (by rw [hy]; rfl)

/-- `updateTabsUI` preserves the registry invariant. -/
theorem registryInv_updateTabs (t : AppState) (h : RegistryInv t) :
    RegistryInv (updateTabsUI t) := by
  obtain ⟨hnd, hrest⟩ := h
  refine ⟨hnd, ?_⟩
  show (match t.currentSessionId with
        | some cur =>
          (∃ r ∈ t.sessions, r.id = cur) ∧
          (∀ r ∈ t.sessions, (r.visible = true ↔ r.id = cur)) ∧
          t.sessions.isEmpty = false
        | none => t.sessions = [] ∧ t.sessions.isEmpty = true)
  cases hcs : t.currentSessionId with
  | some cur =>
    rw [hcs] at hrest
    obtain ⟨⟨r, hr, hrid⟩, hvis, _⟩ := hrest
    refine ⟨⟨r, hr, hrid⟩, hvis, ?_⟩
    rcases ht : t.sessions with _ | ⟨a, l⟩
    · rw [ht] at hr
      exact absurd hr (List.not_mem_nil r)
    · rfl
  | none =>
    rw [hcs] at hrest
    exact ⟨hrest.1, by rw [hrest.1]; rfl⟩

/-- `fmLoadDirectory` preserves the registry invariant (it only touches the
browser state and the fetch trace). -/
theorem registryInv_fmLoad (t : AppState) (p : String) (h : RegistryInv t) :
    RegistryInv (fmLoadDirectory t p) := by
  unfold fmLoadDirectory
  split
  · exact h
  · exact h

/-- `loadInitialFiles` preserves the registry invariant. -/
theorem registryInv_loadInitialFiles (t : AppState) (sid : String)
    (home : Option String) (h : RegistryInv t) :
    RegistryInv (loadInitialFiles t sid home) := by
  cases home with
  | some homeDir =>
    by_cases hc : t.currentSessionId = some sid
    · have heq : loadInitialFiles t sid (some homeDir) = fmLoadDirectory t homeDir := by
        simp only [loadInitialFiles, if_pos hc]
      rw [heq]
      exact registryInv_fmLoad t homeDir h
    · cases hfs : findSession t sid with
      | none =>
        have heq : loadInitialFiles t sid (some homeDir) = t := by
          simp only [loadInitialFiles, if_neg hc, hfs]
        rw [heq]
        exact h
      | some r0 =>
        have heq : loadInitialFiles t sid (some homeDir)
            = { t with sessions := t.sessions.map (fun (r : SessionRec) =>
                  if r.id = sid
                  then { r with fmState := { r.fmState with path := homeDir } }
                  else r) } := by
          simp only [loadInitialFiles, if_neg hc, hfs]
        rw [heq]
        exact registryInv_map_cosmetic t _ (home_map_id sid homeDir)
          (home_map_vis sid homeDir) h
  | none =>
    by_cases hc : t.currentSessionId = some sid
    · have heq : loadInitialFiles t sid none
          = fmLoadDirectory { t with log := t.log ++ ["Failed to get home directory"] }
              "/" := by
        simp only [loadInitialFiles, if_pos hc]
      rw [heq]
      exact registryInv_fmLoad _ "/" h
    · have heq : loadInitialFiles t sid none
          = { t with log := t.log ++ ["Failed to get home directory"] } := by
        simp only [loadInitialFiles, if_neg hc]
      rw [heq]
      exact h

/-- Appending a record with a fresh id keeps the id list duplicate-free. -/
theorem nodup_ids_append_fresh (l : List SessionRec) (nr : SessionRec)
    (hnd : (l.map (·.id)).Nodup) (hfresh : nr.id ∉ l.map (·.id)) :
    ((l ++ [nr]).map (·.id)).Nodup := by
  rw [List.map_append, List.map_singleton, List.nodup_append]
  refine ⟨hnd, List.nodup_singleton _, ?_⟩
  intro a ha hb
  rw [List.mem_singleton] at hb
  exact hfresh (hb ▸ ha)

/-- One admissible orchestrator operation preserves the registry
invariant. -/
theorem registryInv_step (s : AppState) (op : Op) (hInv : RegistryInv s)
    (hadm : (match op with
             | Op.connect _ (Except.ok sid) _ =>
               sid != "" && !(s.sessions.any (fun (r : SessionRec) => r.id == sid))
             | _ => true) = true) :
    RegistryInv (exec s op) := by
  obtain ⟨hnd, hrest⟩ := hInv
  have hpre : ∀ r ∈ s.sessions, r.visible = true → s.currentSessionId = some r.id := by
    intro r hr hv
    cases hcs : s.currentSessionId with
    | none =>
      rw [hcs] at hrest
      rw [hrest.1] at hr
      exact absurd hr (List.not_mem_nil r)
    | some cur =>
      rw [hcs] at hrest
      simp [hcs, (hrest.2.1 r hr).mp hv]
  cases op with
  | switchTo y =>
    show RegistryInv (switchSession s y)
    cases hy : findSession s y with
    | none =>
      rw [switchSession_not_found s y hy]
      exact ⟨hnd, hrest⟩
    | some ry => exact registryInv_switch_found s y ry hy hnd hpre
  | close y notifyOk =>
    show RegistryInv (closeSession s y notifyOk)
    cases hi : s.sessions.findIdx? (fun (r : SessionRec) => r.id == y) with
    | none =>
      rw [closeSession_not_found s y notifyOk hi]
      exact ⟨hnd, hrest⟩
    | some i =>
      cases hnext : (s.sessions.eraseIdx i)[i - 1]? with
      | some next =>
        rw [closeSession_next s y notifyOk i next hi hnext]
        have hfoundNext : (findSession
            { s with sessions := s.sessions.eraseIdx i,
                     disposed := s.disposed ++ [y],
                     unmounted := s.unmounted ++ [y],
                     log := if notifyOk then s.log
                            else s.log ++ ["Disconnect error"] } next.id).isSome := by
          rw [findSession, List.find?_isSome]
          exact ⟨next, List.getElem?_mem hnext, by simp⟩
        obtain ⟨rnext, hrnext⟩ := Option.isSome_iff_exists.mp hfoundNext
        apply registryInv_switch_found _ next.id rnext hrnext
        · show ((s.sessions.eraseIdx i).map (·.id)).Nodup
          rw [map_eraseIdx]
          exact hnd.eraseIdx i
        · intro r hr hv
          exact hpre r (List.mem_of_mem_eraseIdx hr) hv
      | none =>
        obtain ⟨hlt, _, _⟩ := List.findIdx?_eq_some_iff_getElem.mp hi
        have hemp : s.sessions.eraseIdx i = [] := by
          have h1 : (s.sessions.eraseIdx i).length ≤ i - 1 :=
            List.getElem?_eq_none_iff.mp hnext
          have h2 : (s.sessions.eraseIdx i).length = s.sessions.length - 1 :=
            List.length_eraseIdx_of_lt hlt
          have : (s.sessions.eraseIdx i).length = 0 := by omega
          exact List.length_eq_zero.mp this
        rw [closeSession_empty s y notifyOk i hi hemp]
        exact ⟨by simp [idsOf], ⟨rfl, rfl⟩⟩
  | connect pid res home =>
    show RegistryInv (connect s pid res home)
    cases hfind : s.connections.find? (fun (c : ConnInfo) => c.id == pid) with
    | none =>
      unfold connect
      rw [hfind]
      exact ⟨hnd, hrest⟩
    | some conn =>
      cases res with
      | error e =>
        unfold connect
        rw [hfind]
        exact ⟨hnd, hrest⟩
      | ok sid =>
        rw [Bool.and_eq_true] at hadm
        have hfresh : sid ∉ idsOf s := by
          intro hmem
          obtain ⟨r, hr, hid⟩ := List.mem_map.mp hmem
          have : s.sessions.any (fun (r : SessionRec) => r.id == sid) = true :=
            List.any_eq_true.mpr ⟨r, hr, by simp [hid]⟩
          rw [this] at hadm
          exact Bool.noConfusion hadm.2
        unfold connect
        rw [hfind]
        show RegistryInv (addSession _ sid _ home)
        unfold addSession
        apply registryInv_loadInitialFiles
        apply registryInv_updateTabs
        have hfind1 : List.find?
            (fun (r : SessionRec) => r.id == sid)
            (s.sessions ++ [{ id := sid,
                              name := if conn.name = "" then conn.host
                                      else conn.name,
                              visible := false, buffer := [],
                              fmState := { path := "/", history := [],
                                           historyIndex := -1 } }])
            = some { id := sid,
                     name := if conn.name = "" then conn.host else conn.name,
                     visible := false, buffer := [],
                     fmState := { path := "/", history := [],
                                  historyIndex := -1 } } := by
          rw [List.find?_append]
          have hlnone : List.find? (fun (r : SessionRec) => r.id == sid) s.sessions
              = none := by
            rw [List.find?_eq_none]
            intro r hr
            intro hpr
            exact hfresh (List.mem_map.mpr ⟨r, hr, by simpa using hpr⟩)
          rw [hlnone]
          simp
        apply registryInv_switch_found
        case hy => exact hfind1
        case hnd => exact nodup_ids_append_fresh s.sessions _ hnd hfresh
        case hpre =>
          intro r hr hv
          simp only [List.mem_append, List.mem_singleton] at hr
          cases hr with
          | inl hr => exact hpre r hr hv
          | inr hr =>
            rw [hr] at hv
            simp at hv

/-- The registry invariant holds at start-up. -/
theorem registryInv_init (cs : List ConnInfo) : RegistryInv (initState cs) := by
  exact ⟨List.nodup_nil, rfl, rfl⟩

/-- The registry invariant is preserved by every admissible trace. -/
theorem registryInv_execList (s : AppState) (ops : List Op)
    (hInv : RegistryInv s) (h : admissibleB s ops = true) :
    RegistryInv (execList s ops) := by
  induction ops generalizing s with
  | nil => exact hInv
  | cons op rest ih =>
    rw [execList]
    unfold admissibleB at h
    rw [Bool.and_eq_true] at h
    exact ih (exec s op) (registryInv_step s op hInv h.1) h.2

/-- Among sessions whose surfaces all carry the id the pointer names, at
most one can exist when ids are duplicate-free. -/
theorem filter_vis_le_one (l : List SessionRec) (c : String)
    (hnd : (l.map (·.id)).Nodup)
    (h : ∀ r ∈ l, r.visible = true → r.id = c) :
    (l.filter (fun r => r.visible)).length ≤ 1 := by
  induction l with
  | nil => simp
  | cons a l ih =>
    rw [List.map_cons, List.nodup_cons] at hnd
    by_cases hv : a.visible = true
    · rw [List.filter_cons_of_pos (by simpa using hv)]
      have hfl : l.filter (fun r => r.visible) = [] := by
        rw [List.filter_eq_nil_iff]
        intro r hr hrv
        have h1 : r.id = c := h r (List.mem_cons_of_mem a hr) (by simpa using hrv)
        have h2 : a.id = c := h a (List.mem_cons_self a l) hv
        exact hnd.1 (by
          rw [h2, ← h1]
          exact List.mem_map_of_mem _ hr)
      rw [hfl]
      simp
    · rw [List.filter_cons_of_neg (by simpa using hv)]
      exact ih hnd.2 (fun r hr => h r (List.mem_cons_of_mem a hr))

/-- C3: over every admissible sequence of connect/switch/close operations
from start-up, at most one session surface is visible; when the Active
Session Pointer is set it names a registered session, only that session can
be visible, and the placeholder is hidden; when the pointer is empty the
placeholder is shown and nothing is visible. -/
theorem c3_visibility_pointer_invariant (cs : List ConnInfo) (ops : List Op)
    (h : admissibleB (initState cs) ops = true) :
    ((execList (initState cs) ops).sessions.filter (fun r => r.visible)).length ≤ 1 ∧
    (∀ cur, (execList (initState cs) ops).currentSessionId = some cur →
        (∃ r ∈ (execList (initState cs) ops).sessions, r.id = cur) ∧
        (∀ r ∈ (execList (initState cs) ops).sessions, r.visible = true → r.id = cur) ∧
        (execList (initState cs) ops).placeholderShown = false) ∧
    ((execList (initState cs) ops).currentSessionId = none →
        (execList (initState cs) ops).placeholderShown = true ∧
        ∀ r ∈ (execList (initState cs) ops).sessions, r.visible = false) := by
  obtain ⟨hnd, hrest⟩ := registryInv_execList (initState cs) ops (registryInv_init cs) h
  refine ⟨?_, ?_, ?_⟩
  · cases hcs : (execList (initState cs) ops).currentSessionId with
    | some cur =>
      rw [hcs] at hrest
      exact filter_vis_le_one _ cur hnd (fun r hr hv => (hrest.2.1 r hr).mp hv)
    | none =>
      rw [hcs] at hrest
      rw [hrest.1]
      simp
  · intro cur hcs
    rw [hcs] at hrest
    exact ⟨hrest.1, fun r hr hv => (hrest.2.1 r hr).mp hv, hrest.2.2⟩
  · intro hcs
    rw [hcs] at hrest
    refine ⟨hrest.2, ?_⟩
    rw [hrest.1]
    intro r hr
    exact absurd hr (List.not_mem_nil r)

/-- C3 witness: a concrete admissible trace — two connects, a switch back,
and a close — ends with one visible session equal to the pointer. -/
theorem c3_visibility_pointer_invariant_witness :
    admissibleB (initState [{ id := "p1", name := "srv", host := "host1" }])
      [Op.connect "p1" (Except.ok "s1") (some "/home/u"),
       Op.connect "p1" (Except.ok "s2") none,
       Op.switchTo "s1",
       Op.close "s2" true] = true ∧
    ((execList (initState [{ id := "p1", name := "srv", host := "host1" }])
        [Op.connect "p1" (Except.ok "s1") (some "/home/u"),
         Op.connect "p1" (Except.ok "s2") none,
         Op.switchTo "s1",
         Op.close "s2" true]).sessions.filter (fun r => r.visible)).length ≤ 1 := by
  refine ⟨by decide, ?_⟩
  exact (c3_visibility_pointer_invariant _ _ (by decide)).1

/-! ## Snapshot preservation across traces (C5) -/

/-- Registry membership of an id, phrased through `any`. -/
theorem any_id_iff_mem_ids (t : AppState) (x : String) :
    (t.sessions.any (fun (r : SessionRec) => r.id == x)) = true ↔ x ∈ idsOf t := by
  rw [List.any_eq_true, idsOf]
  constructor
  · rintro ⟨r, hr, hpr⟩
    exact List.mem_map.mpr ⟨r, hr, by simpa using hpr⟩
  · intro hmem
    obtain ⟨r, hr, hid⟩ := List.mem_map.mp hmem
    exact ⟨r, hr, by simp [hid]⟩

/-- Erasing an element that fails the predicate does not change `find?`. -/
theorem find?_eraseIdx_of_not (l : List SessionRec) (i : Nat) (rr : SessionRec)
    (p : SessionRec → Bool)
    (h : l[i]? = some rr) (hp : p rr = false) :
    (l.eraseIdx i).find? p = l.find? p := by
  induction l generalizing i with
  | nil => simp at h
  | cons b tl ih =>
    cases i with
    | zero =>
      rw [List.getElem?_cons_zero] at h
      obtain rfl : b = rr := by injection h
      rw [List.eraseIdx_cons_zero, List.find?_cons_of_neg _ (by simp [hp])]
    | succ j =>
      rw [List.getElem?_cons_succ] at h
      rw [List.eraseIdx_cons_succ]
      by_cases hb : p b = true
      · rw [List.find?_cons_of_pos _ hb, List.find?_cons_of_pos _ hb]
      · rw [List.find?_cons_of_neg _ (by simp [hb]),
          List.find?_cons_of_neg _ (by simp [hb]), ih j h]

/-- Occurrence count after erasing one position. -/
theorem count_eraseIdx (l : List String) (i : Nat) (a r : String)
    (h : l[i]? = some r) :
    (l.eraseIdx i).count a = l.count a - (if r = a then 1 else 0) := by
  induction l generalizing i with
  | nil => simp at h
  | cons b tl ih =>
    cases i with
    | zero =>
      rw [List.getElem?_cons_zero] at h
      obtain rfl : b = r := by injection h
      rw [List.eraseIdx_cons_zero, List.count_cons]
      by_cases hb : b = a <;> simp [hb]
    | succ j =>
      rw [List.getElem?_cons_succ] at h
      have hmem : r ∈ tl := List.getElem?_mem h
      rw [List.eraseIdx_cons_succ, List.count_cons, List.count_cons, ih j h]
      by_cases hr : r = a
      · have hpos : 0 < tl.count a := by
          rw [List.count_pos_iff]
          exact hr ▸ hmem
        by_cases hb : b = a <;> simp [hb, hr] <;> omega
      · simp [hr]

/-- `updateTabsUI` does not change session lookups. -/
theorem findSession_updateTabs (u : AppState) (z : String) :
    findSession (updateTabsUI u) z = findSession u z := rfl

/-- `updateTabsUI` does not change the tab order. -/
theorem idsOf_updateTabs (u : AppState) : idsOf (updateTabsUI u) = idsOf u := rfl

/-- `loadInitialFiles` does not move the Active Session Pointer. -/
theorem loadInitialFiles_cur (t : AppState) (sid : String) (home : Option String) :
    (loadInitialFiles t sid home).currentSessionId = t.currentSessionId := by
  simp only [loadInitialFiles, fmLoadDirectory]
  repeat' split
  all_goals rfl

/-- `loadInitialFiles` does not change the tab order. -/
theorem loadInitialFiles_ids (t : AppState) (sid : String) (home : Option String) :
    idsOf (loadInitialFiles t sid home) = idsOf t := by
  simp only [loadInitialFiles, fmLoadDirectory, idsOf]
  repeat' split
  all_goals first
    | rfl
    | exact ids_map_of_id_fix _ (home_map_id _ _) _

/-- `loadInitialFiles` leaves every other session's record unchanged. -/
theorem loadInitialFiles_find_frame (t : AppState) (sid : String)
    (home : Option String) (x : String) (hne : x ≠ sid) :
    findSession (loadInitialFiles t sid home) x = findSession t x := by
  have hfix : ∀ p : String,
      (t.sessions.map (fun (r : SessionRec) =>
          if r.id = sid then { r with fmState := { r.fmState with path := p } }
          else r)).find? (fun (r : SessionRec) => r.id == x)
        = t.sessions.find? (fun (r : SessionRec) => r.id == x) := by
    intro p
    rw [find?_by_id_map _ (home_map_id sid p)]
    cases hzf : t.sessions.find? (fun (r : SessionRec) => r.id == x) with
    | none => rfl
    | some rz =>
      have hid : rz.id = x := by simpa using List.find?_some hzf
      have : rz.id ≠ sid := by
        rw [hid]
        exact hne
      simp [this]
  cases home with
  | some homeDir =>
    by_cases hc : t.currentSessionId = some sid
    · have heq : loadInitialFiles t sid (some homeDir) = fmLoadDirectory t homeDir := by
        simp only [loadInitialFiles, if_pos hc]
      rw [heq]
      unfold fmLoadDirectory findSession
      split <;> rfl
    · cases hfs : findSession t sid with
      | none =>
        have heq : loadInitialFiles t sid (some homeDir) = t := by
          simp only [loadInitialFiles, if_neg hc, hfs]
        rw [heq]
      | some r0 =>
        have heq : loadInitialFiles t sid (some homeDir)
            = { t with sessions := t.sessions.map (fun (r : SessionRec) =>
                  if r.id = sid
                  then { r with fmState := { r.fmState with path := homeDir } }
                  else r) } := by
          simp only [loadInitialFiles, if_neg hc, hfs]
        rw [heq]
        exact hfix homeDir
  | none =>
    by_cases hc : t.currentSessionId = some sid
    · have heq : loadInitialFiles t sid none
          = fmLoadDirectory { t with log := t.log ++ ["Failed to get home directory"] }
              "/" := by
        simp only [loadInitialFiles, if_pos hc]
      rw [heq]
      unfold fmLoadDirectory findSession
      split <;> rfl
    · have heq : loadInitialFiles t sid none
          = { t with log := t.log ++ ["Failed to get home directory"] } := by
        simp only [loadInitialFiles, if_neg hc]
      rw [heq]
      rfl

/-- Looking up the new session after pushing it always succeeds. -/
theorem find?_append_singleton_isSome (l : List SessionRec) (nr : SessionRec)
    (y : String) (hid : nr.id = y) :
    ((l ++ [nr]).find? (fun (r : SessionRec) => r.id == y)).isSome = true := by
  rw [List.find?_append]
  cases h : l.find? (fun (r : SessionRec) => r.id == y) with
  | none => simp [hid]
  | some r => simp

/-- Pushing a record with a different id does not change a lookup. -/
theorem find?_append_singleton_ne (l : List SessionRec) (nr : SessionRec) (y : String)
    (hne : nr.id ≠ y) :
    (l ++ [nr]).find? (fun (r : SessionRec) => r.id == y)
      = l.find? (fun (r : SessionRec) => r.id == y) := by
  rw [List.find?_append]
  have h1 : List.find? (fun (r : SessionRec) => r.id == y) [nr] = none := by
    simp [hne]
  rw [h1, Option.or_none]

/-- After a successful connect, the new session is active. -/
theorem connect_ok_cur (t : AppState) (pid sid : String) (conn : ConnInfo)
    (home : Option String)
    (hfind : t.connections.find? (fun (c : ConnInfo) => c.id == pid) = some conn) :
    (connect t pid (Except.ok sid) home).currentSessionId = some sid := by
  unfold connect
  rw [hfind]
  unfold addSession
  rw [loadInitialFiles_cur]
  apply switchSession_cur
  exact find?_append_singleton_isSome _ _ sid rfl

/-- A successful connect extends the tab order by the new id. -/
theorem connect_ok_ids (t : AppState) (pid sid : String) (conn : ConnInfo)
    (home : Option String)
    (hfind : t.connections.find? (fun (c : ConnInfo) => c.id == pid) = some conn) :
    idsOf (connect t pid (Except.ok sid) home) = idsOf t ++ [sid] := by
  unfold connect
  rw [hfind]
  unfold addSession
  rw [loadInitialFiles_ids, idsOf_updateTabs, switchSession_ids]
  simp only [idsOf]
  rw [List.map_append]
  rfl

/-- A successful connect leaves the records of other sessions unchanged. -/
theorem connect_ok_find_frame (t : AppState) (pid sid : String) (conn : ConnInfo)
    (home : Option String) (x : String)
    (hfind : t.connections.find? (fun (c : ConnInfo) => c.id == pid) = some conn)
    (hne : x ≠ sid) (hcurx : t.currentSessionId ≠ some x) :
    findSession (connect t pid (Except.ok sid) home) x = findSession t x := by
  unfold connect
  rw [hfind]
  unfold addSession
  rw [loadInitialFiles_find_frame _ _ _ _ hne, findSession_updateTabs,
    switchSession_find_frame]
  · apply find?_append_singleton_ne
    intro h
    exact hne (by exact h.symm)
  · exact hne
  · exact hcurx

/-- One operation that keeps `x` registered and inactive does not touch
`x`'s record (in particular its snapshot) and keeps its id unique. -/
theorem avoids_step (t : AppState) (op : Op) (x : String)
    (hcount : (idsOf t).count x = 1)
    (hcur : t.currentSessionId ≠ some x)
    (hin : x ∈ idsOf (exec t op))
    (hcur' : (exec t op).currentSessionId ≠ some x) :
    findSession (exec t op) x = findSession t x ∧
    (idsOf (exec t op)).count x = 1 := by
  cases op with
  | switchTo w =>
    show findSession (switchSession t w) x = findSession t x ∧
      (idsOf (switchSession t w)).count x = 1
    cases hw : findSession t w with
    | none =>
      rw [switchSession_not_found t w hw]
      exact ⟨rfl, hcount⟩
    | some rw0 =>
      have hwx : x ≠ w := by
        intro h
        apply hcur'
        show (switchSession t w).currentSessionId = some x
        rw [switchSession_cur t w (by rw [hw]; rfl), h]
      refine ⟨switchSession_find_frame t w x hwx hcur, ?_⟩
      rw [switchSession_ids]
      exact hcount
  | close w notifyOk =>
    show findSession (closeSession t w notifyOk) x = findSession t x ∧
      (idsOf (closeSession t w notifyOk)).count x = 1
    cases hi : t.sessions.findIdx? (fun (r : SessionRec) => r.id == w) with
    | none =>
      rw [closeSession_not_found t w notifyOk hi]
      exact ⟨rfl, hcount⟩
    | some i =>
      obtain ⟨hlt, hp, _⟩ := List.findIdx?_eq_some_iff_getElem.mp hi
      have hgeti : t.sessions[i]? = some t.sessions[i] := List.getElem?_eq_getElem hlt
      have hidseq : (idsOf t)[i]? = some (t.sessions[i].id) := by
        rw [idsOf, List.getElem?_map, hgeti]
        rfl
      cases hnext : (t.sessions.eraseIdx i)[i - 1]? with
      | none =>
        exfalso
        have hemp : t.sessions.eraseIdx i = [] := by
          have h1 : (t.sessions.eraseIdx i).length ≤ i - 1 :=
            List.getElem?_eq_none_iff.mp hnext
          have h2 : (t.sessions.eraseIdx i).length = t.sessions.length - 1 :=
            List.length_eraseIdx_of_lt hlt
          have : (t.sessions.eraseIdx i).length = 0 := by omega
          exact List.length_eq_zero.mp this
        have h3 : idsOf (closeSession t w notifyOk) = [] := by
          show idsOf (exec t (Op.close w notifyOk)) = []
          rw [show exec t (Op.close w notifyOk) = closeSession t w notifyOk from rfl,
            closeSession_empty t w notifyOk i hi hemp]
          rfl
        have h4 : x ∈ idsOf (closeSession t w notifyOk) := hin
        rw [h3] at h4
        exact absurd h4 (List.not_mem_nil x)
      | some next =>
        have hidsAfter : idsOf (closeSession t w notifyOk) = (idsOf t).eraseIdx i := by
          rw [closeSession_next t w notifyOk i next hi hnext, switchSession_ids]
          show (t.sessions.eraseIdx i).map (·.id) = (t.sessions.map (·.id)).eraseIdx i
          rw [map_eraseIdx]
        have hcountAfter : (idsOf (closeSession t w notifyOk)).count x
            = (idsOf t).count x - (if t.sessions[i].id = x then 1 else 0) := by
          rw [hidsAfter, count_eraseIdx _ i x _ hidseq]
        by_cases hwx2 : t.sessions[i].id = x
        · exfalso
          have h0 : (idsOf (closeSession t w notifyOk)).count x = 0 := by
            rw [hcountAfter, hcount, if_pos hwx2]
          have h5 : x ∉ idsOf (closeSession t w notifyOk) := by
            intro hmem
            have := List.count_pos_iff.mpr hmem
            omega
          exact h5 hin
        · constructor
          · rw [closeSession_next t w notifyOk i next hi hnext]
            have hnnx : x ≠ next.id := by
              intro h
              apply hcur'
              show (closeSession t w notifyOk).currentSessionId = some x
              rw [closeSession_next t w notifyOk i next hi hnext]
              rw [switchSession_cur _ next.id (by
                rw [findSession, List.find?_isSome]
                exact ⟨next, List.getElem?_mem hnext, by simp⟩), h]
            rw [switchSession_find_frame]
            · show (t.sessions.eraseIdx i).find? (fun (r : SessionRec) => r.id == x)
                = t.sessions.find? (fun (r : SessionRec) => r.id == x)
              exact find?_eraseIdx_of_not t.sessions i _ _ hgeti (by simp [hwx2])
            · exact hnnx
            · exact hcur
          · rw [hcountAfter, hcount, if_neg hwx2]
  | connect pid res home =>
    show findSession (connect t pid res home) x = findSession t x ∧
      (idsOf (connect t pid res home)).count x = 1
    cases hfind : t.connections.find? (fun (c : ConnInfo) => c.id == pid) with
    | none =>
      unfold connect
      rw [hfind]
      exact ⟨rfl, hcount⟩
    | some conn =>
      cases res with
      | error e =>
        unfold connect
        rw [hfind]
        exact ⟨rfl, hcount⟩
      | ok sid =>
        have hnsid : x ≠ sid := by
          intro h
          apply hcur'
          show (connect t pid (Except.ok sid) home).currentSessionId = some x
          rw [connect_ok_cur t pid sid conn home hfind, h]
        refine ⟨connect_ok_find_frame t pid sid conn home x hfind hnsid hcur, ?_⟩
        rw [connect_ok_ids t pid sid conn home hfind, List.count_append]
        have : List.count x [sid] = 0 := by
          simp [List.count_singleton]
          exact fun h => hnsid h.symm
        rw [this, hcount]

/-- Over a trace that keeps `x` registered and inactive, `x`'s record (and
so its stored snapshot) is untouched. -/
theorem avoids_execList (x : String) (t : AppState) (ops : List Op)
    (hcount : (idsOf t).count x = 1)
    (hcur : t.currentSessionId ≠ some x)
    (hav : avoidsB x t ops = true) :
    findSession (execList t ops) x = findSession t x ∧
    (idsOf (execList t ops)).count x = 1 ∧
    (execList t ops).currentSessionId ≠ some x := by
  induction ops generalizing t with
  | nil => exact ⟨rfl, hcount, hcur⟩
  | cons op rest ih =>
    rw [execList]
    unfold avoidsB at hav
    rw [Bool.and_eq_true, Bool.and_eq_true] at hav
    obtain ⟨⟨hany, hptr⟩, hrest⟩ := hav
    have hin : x ∈ idsOf (exec t op) := (any_id_iff_mem_ids (exec t op) x).mp hany
    have hptr' : (exec t op).currentSessionId ≠ some x := by
      intro h
      rw [h] at hptr
      simp at hptr
    obtain ⟨hfind, hcount'⟩ := avoids_step t op x hcount hcur hin hptr'
    obtain ⟨h1, h2, h3⟩ := ih (exec t op) hcount' hptr' hrest
    exact ⟨h1.trans hfind, h2, h3⟩

/-- C5: switching away from the active session `x` captures the live
browser path into `x`'s snapshot; after any trace of operations that keeps
`x` registered and inactive, switching back to `x` restores exactly that
path into the Directory Browser and issues exactly one fresh directory
fetch at it (the listing is re-requested, never reused). -/
theorem c5_switch_away_then_back_restores_path (s : AppState) (x y : String)
    (rx ry : SessionRec) (ops : List Op)
    (hx : findSession s x = some rx) (hcs : s.currentSessionId = some x)
    (hy : findSession s y = some ry) (hyx : y ≠ x)
    (hnd : (idsOf s).Nodup) (hxe : x ≠ "") (hp : s.fm.path ≠ "")
    (hav : avoidsB x (switchSession s y) ops = true) :
    (switchSession (execList (switchSession s y) ops) x).fm.path = s.fm.path ∧
    (switchSession (execList (switchSession s y) ops) x).fetches
      = (execList (switchSession s y) ops).fetches ++ [(x, s.fm.path)] := by
  have hsnap1 : snapOf (switchSession s y) x = some (fmGetState s) :=
    switchSession_snap_capture s y x ry rx hy hcs hx
  have hmemx : x ∈ idsOf s :=
    List.mem_map.mpr ⟨rx, findSession_mem s x rx hx, findSession_id s x rx hx⟩
  have hcount1 : (idsOf (switchSession s y)).count x = 1 := by
    rw [switchSession_ids]
    exact List.count_eq_one_of_mem hnd hmemx
  have hcur1 : (switchSession s y).currentSessionId ≠ some x := by
    rw [switchSession_cur s y (by rw [hy]; rfl)]
    intro h
    exact hyx (Option.some.inj h)
  obtain ⟨hfind2, _, hcur2⟩ := avoids_execList x (switchSession s y) ops hcount1 hcur1 hav
  cases hf1 : findSession (switchSession s y) x with
  | none =>
    unfold snapOf at hsnap1
    rw [hf1] at hsnap1
    simp at hsnap1
  | some r1 =>
    have hr1fm : r1.fmState = fmGetState s := by
      unfold snapOf at hsnap1
      rw [hf1] at hsnap1
      simpa using hsnap1
    have hfind2x : findSession (execList (switchSession s y) ops) x = some r1 := by
      rw [hfind2, hf1]
    obtain ⟨hfm, hfet⟩ := switchSession_restore_ne
      (execList (switchSession s y) ops) x r1 hfind2x hcur2 hxe
    have hpath : r1.fmState.path = s.fm.path := by
      rw [hr1fm]
      rfl
    constructor
    · rw [hfm]
      show (if r1.fmState.path = "" then "/" else r1.fmState.path) = s.fm.path
      rw [hpath, if_neg hp]
    · rw [hfet, hpath, if_neg hp]

/-- C5 witness: from the concrete state (active `C`, browser at `/live`),
switching to `A`, then to `B`, then back to `C` restores `/live` and issues
exactly one fresh fetch `("C", "/live")`. -/
theorem c5_switch_away_then_back_witness :
    avoidsB "C" (switchSession exState "A") [Op.switchTo "B"] = true ∧
    (switchSession (execList (switchSession exState "A") [Op.switchTo "B"]) "C").fm.path
      = "/live" ∧
    (switchSession (execList (switchSession exState "A") [Op.switchTo "B"]) "C").fetches
      = (execList (switchSession exState "A") [Op.switchTo "B"]).fetches
        ++ [("C", "/live")] := by
  have h := c5_switch_away_then_back_restores_path exState "C" "A"
    (exRec "C" true "/c") (exRec "A" false "/a") [Op.switchTo "B"]
    (by decide) (by decide) (by decide) (by decide) (by decide) (by decide)
    (by decide) (by decide)
  exact ⟨by decide, h.1, h.2⟩

end RustSSH
